import Mathlib

/-!
Verification of the AICENGHUB request-processing core against its
natural-language specification.  The JavaScript sources are shallowly
embedded: pure functions become Lean functions, database tables become
lists of row structures, and fallible operations return `Except`.
Machine numbers are modelled by `Int`/`Nat`; the few places where the
code can produce the JavaScript value NaN are modelled explicitly by a
dedicated sum type.  String primitives (trim, case folding, splitting)
are implemented over `List Char` so that every definition evaluates
inside the kernel; they model the corresponding JavaScript string
methods for the ASCII data these functions handle.
-/

/-! ## String primitives modelling the JavaScript string methods -/

/-- Boolean prefix test on character lists. -/
def isPrefixOfL : List Char → List Char → Bool
  | [], _ => true
  | _ :: _, [] => false
  | p :: ps, c :: cs => p = c ∧ isPrefixOfL ps cs

/-- Fuel-driven splitter on a non-empty separator sequence, mirroring
the JavaScript `String.prototype.split` semantics (empty segments are
kept).  The fuel is an upper bound on the number of steps; callers pass
the input length plus one. -/
def splitOnSeqGo (sep : List Char) : Nat → List Char → List Char → List (List Char)
  | 0, _, acc => [acc.reverse]
  | _ + 1, [], acc => [acc.reverse]
  | fuel + 1, c :: cs, acc =>
    if isPrefixOfL sep (c :: cs) then
      acc.reverse :: splitOnSeqGo sep fuel ((c :: cs).drop sep.length) []
    else
      splitOnSeqGo sep fuel cs (c :: acc)

/-- Split a character list on a non-empty separator sequence. -/
def splitOnSeq (l sep : List Char) : List (List Char) :=
  splitOnSeqGo sep (l.length + 1) l []

/-- Model of `String.prototype.trim` (both ends, whitespace class
restricted to the ASCII whitespace these sources produce). -/
def trimL (l : List Char) : List Char :=
  ((l.dropWhile Char.isWhitespace).reverse.dropWhile Char.isWhitespace).reverse

/-- Model of `String.prototype.trim` on strings. -/
def trimStr (s : String) : String :=
  String.mk (trimL s.toList)

/-- Model of `String.prototype.toLowerCase` (ASCII case folding). -/
def toLowerStr (s : String) : String :=
  String.mk (s.toList.map Char.toLower)

/-- Model of `String.prototype.endsWith`. -/
def endsWithStr (s suffix : String) : Bool :=
  isPrefixOfL suffix.toList.reverse s.toList.reverse

/-- Model of `String.prototype.startsWith`. -/
def startsWithStr (s pre : String) : Bool :=
  isPrefixOfL pre.toList s.toList

/-- Model of `String.prototype.includes` for a single character. -/
def containsChar (s : String) (c : Char) : Bool :=
  s.toList.contains c

/-- Model of `String.prototype.slice(0, n)`. -/
def takeStr (s : String) (n : Nat) : String :=
  String.mk (s.toList.take n)

/-- Decimal value of a digit-character list, as the JavaScript `Number`
coercion computes it on an all-digit string. -/
def decimalVal (l : List Char) : Nat :=
  l.foldl (fun acc c => acc * 10 + (c.toNat - 48)) 0

/-- Hex digit list (lowercase, no leading zeros) of a natural number
below 2^32, as produced by `n.toString(16)`; driven by nibble fuel. -/
def hexDigitsGo : Nat → Nat → List Char
  | 0, _ => []
  | fuel + 1, n =>
    if n = 0 then [] else hexDigitsGo fuel (n / 16) ++ [Nat.digitChar (n % 16)]

/-- Model of `n.toString(16)` for the 16-bit group values these sources
produce. -/
def toHexString (n : Nat) : String :=
  if n = 0 then "0" else String.mk (hexDigitsGo 8 n)

/-- Numeric value of one lowercase hex digit character. -/
def hexDigitVal (c : Char) : Nat :=
  if c.isDigit then c.toNat - 48 else c.toNat - 87

/-- Value of a lowercase hexadecimal string, as in `parseInt(s, 16)` on
the already-validated 4-digit groups of an expanded IPv6 address. -/
def parseHex (s : String) : Nat :=
  s.toList.foldl (fun acc c => acc * 16 + hexDigitVal c) 0

/-! ## Safe-Fetcher host gating (api/_safe-fetch.js) -/

/-- Metadata-service IP literals that are always blocked
(`BLOCKED_METADATA_IPS`). -/
def BLOCKED_METADATA_IPS : List String :=
  ["169.254.169.254", "169.254.170.2", "100.100.100.200"]

/-- Default outbound ports (`DEFAULT_ALLOWED_PORTS`). -/
def DEFAULT_ALLOWED_PORTS : List Nat := [80, 443, 8080]

/-- Embedding of `parseIpv4`: the input must match
`^\d{1,3}(\.\d{1,3}){3}$` after trimming and every octet must be at most
255; the octet list is returned.  Leading zeros are accepted, exactly as
in the source regex. -/
def parseIpv4 (input : String) : Option (List Nat) :=
  let value := trimL input.toList
  let parts := value.splitOn '.'
  if parts.length = 4
      ∧ parts.all (fun p => 1 ≤ p.length ∧ p.length ≤ 3 ∧ p.all Char.isDigit) then
    let octets := parts.map decimalVal
    if octets.any (fun o => 255 < o) then none else some octets
  else
    none

/-- Embedding of `isPrivateOrLocalIpv4`. -/
def isPrivateOrLocalIpv4 (address : String) : Bool :=
  match parseIpv4 address with
  | none => false
  | some octets =>
    let a := octets.getD 0 0
    let b := octets.getD 1 0
    a = 127 ∨ a = 10 ∨ a = 0 ∨ (a = 169 ∧ b = 254)
      ∨ (a = 172 ∧ 16 ≤ b ∧ b ≤ 31) ∨ (a = 192 ∧ b = 168)

/-- Embedding of `ipv4ToIpv6Hextets`: high and low 16-bit groups of the
four octets, rendered in lowercase hex without padding. -/
def ipv4ToIpv6Hextets (address : String) : Option (String × String) :=
  match parseIpv4 address with
  | none => none
  | some octets =>
    let high := (octets.getD 0 0) <<< 8 + octets.getD 1 0
    let low := (octets.getD 2 0) <<< 8 + octets.getD 3 0
    some (toHexString high, toHexString low)

/-- One lowercase hex digit, for the `[0-9a-f]{1,4}` group check of
`expandIpv6` (the input is lowercased before the check runs). -/
def isHexLowerChar (c : Char) : Bool :=
  c.isDigit ∨ ('a' ≤ c ∧ c ≤ 'f')

/-- Left-pad a character list with `0` to the given length, as in
`part.padStart(4, "0")`. -/
def padStartZero (l : List Char) (len : Nat) : List Char :=
  List.replicate (len - l.length) '0' ++ l

/-- Embedding of `expandIpv6`: trims and lowercases, strips one pair of
surrounding brackets and any `%zone` suffix, folds an embedded dotted
IPv4 tail into two hex groups, expands a single `::` gap, and returns
the eight groups padded to four digits, or `none` when the input is not
a well-formed IPv6 literal. -/
def expandIpv6 (address : String) : Option (List String) :=
  let source0 := (trimL address.toList).map Char.toLower
  if source0 = [] then none else
  let source1 :=
    if isPrefixOfL ['['] source0 ∧ isPrefixOfL [']'] source0.reverse then
      (source0.drop 1).dropLast
    else source0
  let source2 := (source1.splitOn '%').headD source1
  let sourceV4 : Option (List Char) :=
    if source2.contains '.' then
      let revTail := source2.reverse.takeWhile (fun c => c ≠ ':')
      let revRest := source2.reverse.dropWhile (fun c => c ≠ ':')
      match revRest with
      | [] => none
      | _ :: revPre =>
        match ipv4ToIpv6Hextets (String.mk revTail.reverse) with
        | none => none
        | some mapped =>
          some (revPre.reverse ++ ':' :: mapped.fst.toList ++ ':' :: mapped.snd.toList)
    else some source2
  match sourceV4 with
  | none => none
  | some source =>
    let pieces := splitOnSeq source [':', ':']
    if 2 < pieces.length then none else
    let leftRaw := pieces.getD 0 []
    let left := if leftRaw ≠ [] then (leftRaw.splitOn ':').filter (fun p => p ≠ []) else []
    let rightRaw := pieces.getD 1 []
    let right :=
      if pieces.length = 2 ∧ rightRaw ≠ [] then
        (rightRaw.splitOn ':').filter (fun p => p ≠ [])
      else []
    let missing : Int := 8 - (left.length + right.length : Nat)
    if pieces.length = 1 ∧ missing ≠ 0 then none else
    if missing < 0 then none else
    let parts := left ++ List.replicate missing.toNat ['0'] ++ right
    if parts.length ≠ 8 then none else
    if parts.all (fun p => 1 ≤ p.length ∧ p.length ≤ 4 ∧ p.all isHexLowerChar) then
      some (parts.map (fun p => String.mk (padStartZero p 4)))
    else none

/-- Embedding of `isPrivateOrLocalIpv6`. -/
def isPrivateOrLocalIpv6 (address : String) : Bool :=
  match expandIpv6 address with
  | none => false
  | some parts =>
    let first := parseHex (parts.getD 0 "")
    let second := parseHex (parts.getD 1 "")
    let allZero := parts.all (fun p => p = "0000")
    if allZero then true
    else if (parts.take 7).all (fun p => p = "0000") ∧ parts.getD 7 "" = "0001" then true
    else if first &&& 0xfe00 = 0xfc00 then true
    else if first &&& 0xffc0 = 0xfe80 then true
    else if first = 0 ∧ second = 0xffff then
      let p6 := parseHex (parts.getD 6 "")
      let p7 := parseHex (parts.getD 7 "")
      isPrivateOrLocalIpv4
        (Nat.repr (p6 >>> 8) ++ "." ++ Nat.repr (p6 &&& 255) ++ "."
          ++ Nat.repr (p7 >>> 8) ++ "." ++ Nat.repr (p7 &&& 255))
    else false

/-- Embedding of `isPrivateOrLocalIp`. -/
def isPrivateOrLocalIp (address : String) : Bool :=
  let value := trimStr address
  if value = "" then true
  else if BLOCKED_METADATA_IPS.contains value then true
  else if isPrivateOrLocalIpv4 value then true
  else if isPrivateOrLocalIpv6 value then true
  else false

/-- Embedding of `isBlockedHostname`. -/
def isBlockedHostname (hostname : String) : Bool :=
  let value := toLowerStr (trimStr hostname)
  if value = "" then true
  else if value = "localhost" then true
  else if endsWithStr value ".local" then true
  else if value = "::1" then true
  else if isPrivateOrLocalIp value then true
  else false

/-- Strict dotted-quad test used to model the IPv4 half of the Node
standard-library call `net.isIP`: four decimal octets, each at most 255,
with no leading zeros. -/
def isIPv4Strict (s : String) : Bool :=
  let parts := s.toList.splitOn '.'
  parts.length = 4
    ∧ parts.all (fun p =>
        1 ≤ p.length ∧ p.length ≤ 3 ∧ p.all Char.isDigit
          ∧ (p.length = 1 ∨ ¬ isPrefixOfL ['0'] p)
          ∧ decimalVal p ≤ 255)

/-- Model of the Node standard-library call `net.isIP(s) != 0`: a strict
IPv4 dotted quad, or an IPv6 literal without brackets and without a zone
suffix that expands to eight groups. -/
def netIsIP (s : String) : Bool :=
  isIPv4Strict s
    ∨ (¬ startsWithStr s "[" ∧ ¬ containsChar s '%' ∧ containsChar s ':'
        ∧ (expandIpv6 s).isSome)

/-- Parsed URL pieces that the host/port gate of `safeFetch` inspects.
`port` is `none` when the URL carries no explicit port. -/
structure ParsedUrl where
  protocol : String
  hostname : String
  port : Option Nat
deriving Repr, DecidableEq

/-- Embedding of `effectivePort`. -/
def effectivePort (u : ParsedUrl) : Nat :=
  match u.port with
  | some p => p
  | none =>
    if u.protocol = "http:" then 80
    else if u.protocol = "https:" then 443
    else 0

/-- Embedding of `assertAllowedPort`, with the thrown error represented
as an `Except` error value. -/
def assertAllowedPort (u : ParsedUrl) (allowedPorts : List Nat) : Except String Unit :=
  if allowedPorts.contains (effectivePort u) then Except.ok () else Except.error "blocked-port"

/-- The record loop of `assertResolvablePublicHost`: each resolved
address is trimmed, empty addresses are skipped, and the first
private/local address aborts with `blocked-resolved-ip`. -/
def checkResolvedRecords : List String → Except String Unit
  | [] => Except.ok ()
  | r :: rest =>
    let address := trimStr r
    if address = "" then checkResolvedRecords rest
    else if isPrivateOrLocalIp address then Except.error "blocked-resolved-ip"
    else checkResolvedRecords rest

/-- Embedding of `assertResolvablePublicHost`.  The DNS callback result
is passed in as the list of resolved address strings. -/
def assertResolvablePublicHost (rawHostname : String) (dnsRecords : List String) :
    Except String Unit :=
  let hostname := trimStr rawHostname
  if isBlockedHostname hostname then Except.error "blocked-hostname"
  else if netIsIP hostname then
    if isPrivateOrLocalIp hostname then Except.error "blocked-ip" else Except.ok ()
  else if dnsRecords.isEmpty then Except.error "dns-no-records"
  else checkResolvedRecords dnsRecords

/-- The gating performed by `safeFetch` on each hop before any request
is issued: the port check followed by the host-safety check, with the
default allowed-port set (the claim calls `safeFetch(url, {})`). -/
def safeFetchHostGate (u : ParsedUrl) (dnsRecords : List String) : Except String Unit :=
  match assertAllowedPort u DEFAULT_ALLOWED_PORTS with
  | Except.error e => Except.error e
  | Except.ok _ => assertResolvablePublicHost u.hostname dnsRecords

deriving instance DecidableEq for Except

/-- Helper: the hostname denylist check subsumes the private/local IP
check, since `isBlockedHostname` itself calls `isPrivateOrLocalIp`. -/
lemma isBlockedHostname_of_private (h : String)
    (hp : isPrivateOrLocalIp (toLowerStr (trimStr h)) = true) :
    isBlockedHostname h = true := by
  simp only [isBlockedHostname]
  split_ifs <;> simp_all

/-- C1 (amended): for every URL whose hostname is a literal IP address
in the private/local/metadata set, on an allowed port, safeFetch rejects
with the error kind blocked-hostname: the hostname denylist check runs
first and subsumes the literal-IP check, so the blocked-ip error kind is
unreachable for such hostnames. -/
theorem C1_amended_blocked_hostname (u : ParsedUrl) (dns : List String)
    (hclean : trimStr u.hostname = u.hostname)
    (hip : netIsIP u.hostname = true)
    (hpriv : isPrivateOrLocalIp (toLowerStr u.hostname) = true)
    (hport : DEFAULT_ALLOWED_PORTS.contains (effectivePort u) = true) :
    safeFetchHostGate u dns = Except.error "blocked-hostname" := by
  have hb : isBlockedHostname (trimStr u.hostname) = true :=
    isBlockedHostname_of_private (trimStr u.hostname) (by rw [hclean, hclean]; exact hpriv)
  have hmem : effectivePort u ∈ DEFAULT_ALLOWED_PORTS := by simpa using hport
  have hipTrim : netIsIP u.hostname = true := hip
  simp [safeFetchHostGate, assertAllowedPort, assertResolvablePublicHost, hmem, hb]

/-- C1 (witness): the amended theorem instantiated at the metadata IP
URL from the specification scenario. -/
theorem C1_amended_blocked_hostname_witness :
    trimStr "169.254.169.254" = "169.254.169.254"
      ∧ netIsIP "169.254.169.254" = true
      ∧ isPrivateOrLocalIp (toLowerStr "169.254.169.254") = true
      ∧ DEFAULT_ALLOWED_PORTS.contains
          (effectivePort { protocol := "http:", hostname := "169.254.169.254", port := none }) = true
      ∧ safeFetchHostGate { protocol := "http:", hostname := "169.254.169.254", port := none } []
          = Except.error "blocked-hostname" :=
  ⟨by decide, by decide, by decide, by decide,
    C1_amended_blocked_hostname
      { protocol := "http:", hostname := "169.254.169.254", port := none } []
      (by decide) (by decide) (by decide) (by decide)⟩

/-- C1 (counterexample): safeFetch on http://169.254.169.254/ rejects
with blocked-hostname, not with blocked-ip as the claim states. -/
theorem C1_counterexample :
    safeFetchHostGate { protocol := "http:", hostname := "169.254.169.254", port := none } []
        = Except.error "blocked-hostname"
      ∧ safeFetchHostGate { protocol := "http:", hostname := "169.254.169.254", port := none } []
          ≠ Except.error "blocked-ip" := by
  constructor
  · decide
  · decide

/-! ## Rate limiter (api/_rate-limit.js) -/

inductive JsNum where
  | nan
  | num (n : Int)
deriving Repr, DecidableEq

def jsAdd : JsNum → JsNum → JsNum
  | JsNum.num a, JsNum.num b => JsNum.num (a + b)
  | _, _ => JsNum.nan

def jsGtInt : JsNum → Int → Bool
  | JsNum.num a, b => decide (b < a)
  | JsNum.nan, _ => false

def jsMaxInt (a : Int) : JsNum → JsNum
  | JsNum.num b => JsNum.num (max a b)
  | JsNum.nan => JsNum.nan

def jsSubInt (a : Int) : JsNum → JsNum
  | JsNum.num b => JsNum.num (a - b)
  | JsNum.nan => JsNum.nan

inductive JsVal where
  | undef
  | num (n : Int)
  | nan
  | str (s : String) (coerced : Option Int)
deriving Repr, DecidableEq

def jsTruthy : JsVal → Bool
  | JsVal.undef => false
  | JsVal.num n => decide (n ≠ 0)
  | JsVal.nan => false
  | JsVal.str s _ => decide (s ≠ "")

def jsToNumber : JsVal → JsNum
  | JsVal.undef => JsNum.nan
  | JsVal.num n => JsNum.num n
  | JsVal.nan => JsNum.nan
  | JsVal.str _ c =>
    match c with
    | some n => JsNum.num n
    | none => JsNum.nan

def effectiveWeight (w : JsVal) : JsNum :=
  jsMaxInt 1 (jsToNumber (if jsTruthy w then w else JsVal.num 1))

structure RLBucket where
  count : JsNum
  resetAt : Int
deriving Repr, DecidableEq

abbrev RLState := List (String × RLBucket)

def rlLookup (st : RLState) (k : String) : Option RLBucket :=
  (st.find? (fun e => e.fst = k)).map (fun e => e.snd)

def rlSet : RLState → String → RLBucket → RLState
  | [], k, b => [(k, b)]
  | e :: rest, k, b => if e.fst = k then (k, b) :: rest else e :: rlSet rest k b

def cleanupExpired (st : RLState) (maxEntries : Nat) (now : Int) : RLState :=
  if st.length ≤ maxEntries then st else st.filter (fun e => now < e.snd.resetAt)

structure RLResult where
  allowed : Bool
  remaining : JsNum
  retryAfterSec : Int
  resetAt : Int
deriving Repr, DecidableEq

def consumeRateLimit (st : RLState) (key : String) (limit windowMs : Int) (weight : JsVal)
    (now : Int) : RLState × RLResult :=
  let k := trimStr key
  if k = "" ∨ limit ≤ 0 ∨ windowMs ≤ 0 then
    (st, { allowed := true, remaining := JsNum.num limit, retryAfterSec := 0, resetAt := now })
  else
    let st1 := cleanupExpired st 8000 now
    let fresh : RLBucket := { count := JsNum.num 0, resetAt := now + windowMs }
    let pair : RLBucket × RLState :=
      match rlLookup st1 k with
      | some b => if b.resetAt ≤ now then (fresh, rlSet st1 k fresh) else (b, st1)
      | none => (fresh, rlSet st1 k fresh)
    let bucket := pair.fst
    let st2 := pair.snd
    let w := effectiveWeight weight
    if jsGtInt (jsAdd bucket.count w) limit then
      (st2,
        { allowed := false,
          remaining := jsMaxInt 0 (jsSubInt limit bucket.count),
          retryAfterSec := max 1 (Int.ediv (bucket.resetAt - now + 999) 1000),
          resetAt := bucket.resetAt })
    else
      (rlSet st2 k { bucket with count := jsAdd bucket.count w },
        { allowed := true,
          remaining := jsMaxInt 0 (jsSubInt limit (jsAdd bucket.count w)),
          retryAfterSec := 0,
          resetAt := bucket.resetAt })

example :
    (consumeRateLimit [] "k" 5 60000 (JsVal.num 5) 0).snd.allowed = true := by decide
example :
    (consumeRateLimit (consumeRateLimit [] "k" 5 60000 (JsVal.num 5) 0).fst
      "k" 5 60000 (JsVal.num 1) 0).snd
      = { allowed := false, remaining := JsNum.num 0, retryAfterSec := 60, resetAt := 60000 } := by
  decide
example :
    (consumeRateLimit [] "k" 5 60000 (JsVal.str "abc" none) 0).snd.allowed = true := by decide
example :
    rlLookup (consumeRateLimit [] "k" 5 60000 (JsVal.str "abc" none) 0).fst "k"
      = some { count := JsNum.nan, resetAt := 60000 } := by decide
example :
    (consumeRateLimit [] " " 5 60000 (JsVal.num 1) 0).snd.allowed = true := by decide

lemma rlLookup_rlSet (st : RLState) (k : String) (b : RLBucket) :
    rlLookup (rlSet st k b) k = some b := by
  induction st with
  | nil => simp [rlSet, rlLookup]
  | cons e rest ih =>
    by_cases h : e.fst = k
    · simp [rlSet, h, rlLookup]
    · simp only [rlSet, if_neg h]
      simpa [rlLookup, List.find?_cons, h] using ih

lemma rlLookup_cleanup_none (st : RLState) (k : String) (m : Nat) (now : Int)
    (h : rlLookup st k = none) : rlLookup (cleanupExpired st m now) k = none := by
  unfold cleanupExpired
  split
  · exact h
  · unfold rlLookup at h ⊢
    rcases hf : List.find? (fun e => decide (e.fst = k)) st with _ | e
    · rw [List.find?_eq_none] at hf
      have : List.find? (fun e => decide (e.fst = k)) (st.filter (fun e => now < e.snd.resetAt)) = none := by
        rw [List.find?_eq_none]
        intro x hx
        exact hf x (List.mem_filter.mp hx).1
      simp [this]
    · simp [hf] at h

lemma find?_filter_of_found {α : Type} (l : List α) (p q : α → Bool) (e : α)
    (h : l.find? p = some e) (hq : q e = true) : (l.filter q).find? p = some e := by
  induction l with
  | nil => simp at h
  | cons a rest ih =>
    by_cases hpa : p a = true
    · have hea : e = a := by
        have := h
        simp [List.find?_cons, hpa] at this
        exact this.symm
      subst hea
      rw [List.filter_cons_of_pos hq, List.find?_cons_of_pos _ hpa]
    · have hrest : rest.find? p = some e := by
        simpa [List.find?_cons, hpa] using h
      by_cases hqa : q a = true
      · rw [List.filter_cons_of_pos hqa, List.find?_cons_of_neg _ hpa]
        exact ih hrest
      · rw [List.filter_cons_of_neg hqa]
        exact ih hrest

lemma rlLookup_cleanup_some (st : RLState) (k : String) (m : Nat) (now : Int) (b : RLBucket)
    (h : rlLookup st k = some b) (hb : now < b.resetAt) :
    rlLookup (cleanupExpired st m now) k = some b := by
  unfold cleanupExpired
  split
  · exact h
  · unfold rlLookup at h ⊢
    rcases hf : List.find? (fun e => decide (e.fst = k)) st with _ | e
    · simp [hf] at h
    · simp only [hf, Option.map_some] at h
      have he : e.snd = b := by injection h
      have hq : (fun e : String × RLBucket => decide (now < e.snd.resetAt)) e = true := by
        simp [he, hb]
      have hfilter := find?_filter_of_found st (fun e => decide (e.fst = k))
        (fun e => decide (now < e.snd.resetAt)) e hf hq
      simp [hfilter, h]

lemma consume_missing_allowed (st : RLState) (key : String) (lim win : Int) (w : JsVal)
    (now : Int)
    (hguard : ¬(trimStr key = "" ∨ lim ≤ 0 ∨ win ≤ 0))
    (hnone : rlLookup (cleanupExpired st 8000 now) (trimStr key) = none)
    (hgt : jsGtInt (jsAdd (JsNum.num 0) (effectiveWeight w)) lim = false) :
    consumeRateLimit st key lim win w now =
      (rlSet (rlSet (cleanupExpired st 8000 now) (trimStr key)
          { count := JsNum.num 0, resetAt := now + win }) (trimStr key)
          { count := jsAdd (JsNum.num 0) (effectiveWeight w), resetAt := now + win },
        { allowed := true,
          remaining := jsMaxInt 0 (jsSubInt lim (jsAdd (JsNum.num 0) (effectiveWeight w))),
          retryAfterSec := 0,
          resetAt := now + win }) := by
  simp only [consumeRateLimit]
  rw [if_neg hguard, hnone]
  simp only [hgt]
  simp

lemma consume_live_denied (st : RLState) (key : String) (lim win : Int) (w : JsVal)
    (now : Int) (b : RLBucket)
    (hguard : ¬(trimStr key = "" ∨ lim ≤ 0 ∨ win ≤ 0))
    (hfound : rlLookup (cleanupExpired st 8000 now) (trimStr key) = some b)
    (hlive : ¬ b.resetAt ≤ now)
    (hgt : jsGtInt (jsAdd b.count (effectiveWeight w)) lim = true) :
    consumeRateLimit st key lim win w now =
      (cleanupExpired st 8000 now,
        { allowed := false,
          remaining := jsMaxInt 0 (jsSubInt lim b.count),
          retryAfterSec := max 1 (Int.ediv (b.resetAt - now + 999) 1000),
          resetAt := b.resetAt }) := by
  simp only [consumeRateLimit]
  rw [if_neg hguard, hfound]
  simp only [if_neg hlive, hgt]
  simp

/-- C6: for every non-empty key (after trimming), finite limit of at
least 1 and positive window, starting from a state with no bucket for
that key, two back-to-back consume calls with weight = limit and then
weight = 1 (the second call before the window resets) return
allowed = true, then allowed = false with retryAfterSec at least 1. -/
theorem C6_backtoback (st : RLState) (key : String) (lim win now now2 : Int)
    (hkey : trimStr key ≠ "") (hlim : 1 ≤ lim) (hwin : 0 < win)
    (hnone : rlLookup st (trimStr key) = none)
    (h2 : now2 < now + win) :
    (consumeRateLimit st key lim win (JsVal.num lim) now).snd.allowed = true
      ∧ (consumeRateLimit (consumeRateLimit st key lim win (JsVal.num lim) now).fst
          key lim win (JsVal.num 1) now2).snd.allowed = false
      ∧ 1 ≤ (consumeRateLimit (consumeRateLimit st key lim win (JsVal.num lim) now).fst
          key lim win (JsVal.num 1) now2).snd.retryAfterSec := by
  have hguard : ¬(trimStr key = "" ∨ lim ≤ 0 ∨ win ≤ 0) := by
    push_neg
    exact ⟨hkey, by omega, by omega⟩
  have hlook1 : rlLookup (cleanupExpired st 8000 now) (trimStr key) = none :=
    rlLookup_cleanup_none st (trimStr key) 8000 now hnone
  have hne : lim ≠ 0 := by omega
  have hw1 : effectiveWeight (JsVal.num lim) = JsNum.num lim := by
    simp [effectiveWeight, jsTruthy, jsToNumber, jsMaxInt, hne, max_eq_right hlim]
  have hgt1 : jsGtInt (jsAdd (JsNum.num 0) (JsNum.num lim)) lim = false := by
    simp [jsAdd, jsGtInt]
  have key1 := consume_missing_allowed st key lim win (JsVal.num lim) now hguard hlook1
    (by rw [hw1]; exact hgt1)
  have hlookA : rlLookup (consumeRateLimit st key lim win (JsVal.num lim) now).fst (trimStr key)
      = some { count := jsAdd (JsNum.num 0) (effectiveWeight (JsVal.num lim)), resetAt := now + win } := by
    rw [key1]
    exact rlLookup_rlSet _ _ _
  have hlook2 : rlLookup (cleanupExpired (consumeRateLimit st key lim win (JsVal.num lim) now).fst
      8000 now2) (trimStr key)
      = some { count := jsAdd (JsNum.num 0) (effectiveWeight (JsVal.num lim)), resetAt := now + win } :=
    rlLookup_cleanup_some _ _ _ _ _ hlookA (by simpa using h2)
  have hw2 : effectiveWeight (JsVal.num 1) = JsNum.num 1 := by
    simp [effectiveWeight, jsTruthy, jsToNumber, jsMaxInt]
  have hgt2 : jsGtInt (jsAdd (jsAdd (JsNum.num 0) (effectiveWeight (JsVal.num lim)))
      (effectiveWeight (JsVal.num 1))) lim = true := by
    rw [hw1, hw2]
    simp [jsAdd, jsGtInt]
  have key2 := consume_live_denied (consumeRateLimit st key lim win (JsVal.num lim) now).fst
    key lim win (JsVal.num 1) now2
    { count := jsAdd (JsNum.num 0) (effectiveWeight (JsVal.num lim)), resetAt := now + win }
    hguard hlook2 (by simp only; omega) hgt2
  refine ⟨by rw [key1], by rw [key2], ?_⟩
  rw [key2]
  exact le_max_left 1 _

lemma consume_live_allowed (st : RLState) (key : String) (lim win : Int) (w : JsVal)
    (now : Int) (b : RLBucket)
    (hguard : ¬(trimStr key = "" ∨ lim ≤ 0 ∨ win ≤ 0))
    (hfound : rlLookup (cleanupExpired st 8000 now) (trimStr key) = some b)
    (hlive : ¬ b.resetAt ≤ now)
    (hgt : jsGtInt (jsAdd b.count (effectiveWeight w)) lim = false) :
    consumeRateLimit st key lim win w now =
      (rlSet (cleanupExpired st 8000 now) (trimStr key)
          { count := jsAdd b.count (effectiveWeight w), resetAt := b.resetAt },
        { allowed := true,
          remaining := jsMaxInt 0 (jsSubInt lim (jsAdd b.count (effectiveWeight w))),
          retryAfterSec := 0,
          resetAt := b.resetAt }) := by
  simp only [consumeRateLimit]
  rw [if_neg hguard, hfound]
  simp only [if_neg hlive, hgt]
  simp

/-- C6 (witness): the theorem instantiated with the chat bucket
parameters (limit 30, window 10 minutes) on an empty state. -/
theorem C6_backtoback_witness :
    trimStr "chat:203.0.113.10" ≠ ""
      ∧ (1 : Int) ≤ 30
      ∧ (0 : Int) < 600000
      ∧ rlLookup ([] : RLState) (trimStr "chat:203.0.113.10") = none
      ∧ (0 : Int) < 0 + 600000
      ∧ ((consumeRateLimit [] "chat:203.0.113.10" 30 600000 (JsVal.num 30) 0).snd.allowed = true
          ∧ (consumeRateLimit (consumeRateLimit [] "chat:203.0.113.10" 30 600000 (JsVal.num 30) 0).fst
              "chat:203.0.113.10" 30 600000 (JsVal.num 1) 0).snd.allowed = false
          ∧ 1 ≤ (consumeRateLimit (consumeRateLimit [] "chat:203.0.113.10" 30 600000 (JsVal.num 30) 0).fst
              "chat:203.0.113.10" 30 600000 (JsVal.num 1) 0).snd.retryAfterSec) :=
  ⟨by decide, by decide, by decide, by decide, by decide,
    C6_backtoback [] "chat:203.0.113.10" 30 600000 0 0
      (by decide) (by decide) (by decide) (by decide) (by decide)⟩

/-- C10 (counterexample): a truthy non-numeric weight (the string
"abc") is not treated as 1: the effective weight is NaN, the consume is
allowed, and the bucket count becomes NaN instead of increasing by at
least 1. -/
theorem C10_counterexample :
    (consumeRateLimit [] "k" 5 60000 (JsVal.str "abc" none) 0).snd.allowed = true
      ∧ rlLookup (consumeRateLimit [] "k" 5 60000 (JsVal.str "abc" none) 0).fst "k"
          = some { count := JsNum.nan, resetAt := 60000 }
      ∧ JsNum.nan ≠ JsNum.num 1
      ∧ effectiveWeight (JsVal.str "abc" none) = JsNum.nan := by
  refine ⟨by decide, by decide, by decide, by decide⟩

/-- C10 (amended): a weight of 0, a negative numeric weight, an absent
weight, or the number NaN is coerced to effective weight 1, and every
allowed consume with a numeric weight on a valid live bucket increases
the bucket count by that effective weight, hence by at least 1; only a
truthy weight whose Number coercion is NaN (a non-numeric string)
escapes the floor, making the effective weight NaN. -/
theorem C10_amended_weight_floor (st : RLState) (key : String) (lim win now : Int) (n : Int)
    (b : RLBucket) (c : Int)
    (hkey : trimStr key ≠ "") (hlim : 0 < lim) (hwin : 0 < win)
    (hb : rlLookup (cleanupExpired st 8000 now) (trimStr key) = some b)
    (hlive : ¬ b.resetAt ≤ now) (hc : b.count = JsNum.num c) :
    effectiveWeight (JsVal.num n) = JsNum.num (max 1 n)
      ∧ effectiveWeight JsVal.undef = JsNum.num 1
      ∧ effectiveWeight JsVal.nan = JsNum.num 1
      ∧ ((consumeRateLimit st key lim win (JsVal.num n) now).snd.allowed = true →
          rlLookup (consumeRateLimit st key lim win (JsVal.num n) now).fst (trimStr key)
              = some { count := JsNum.num (c + max 1 n), resetAt := b.resetAt }
            ∧ c + 1 ≤ c + max 1 n) := by
  have hguard : ¬(trimStr key = "" ∨ lim ≤ 0 ∨ win ≤ 0) := by
    push_neg
    exact ⟨hkey, by omega, by omega⟩
  have hwn : effectiveWeight (JsVal.num n) = JsNum.num (max 1 n) := by
    by_cases hn : n = 0 <;>
      simp [effectiveWeight, jsTruthy, jsToNumber, jsMaxInt, hn]
  have hone : (1 : Int) ≤ max 1 n := le_max_left 1 n
  refine ⟨hwn, by simp [effectiveWeight, jsTruthy, jsToNumber, jsMaxInt],
    by simp [effectiveWeight, jsTruthy, jsToNumber, jsMaxInt], ?_⟩
  have hadd : jsAdd b.count (effectiveWeight (JsVal.num n)) = JsNum.num (c + max 1 n) := by
    rw [hc, hwn]
    rfl
  by_cases hgt : jsGtInt (jsAdd b.count (effectiveWeight (JsVal.num n))) lim = true
  · have key0 := consume_live_denied st key lim win (JsVal.num n) now b hguard hb hlive hgt
    intro hallow
    rw [key0] at hallow
    simp at hallow
  · have hgtf : jsGtInt (jsAdd b.count (effectiveWeight (JsVal.num n))) lim = false := by
      simpa using hgt
    have key0 := consume_live_allowed st key lim win (JsVal.num n) now b hguard hb hlive hgtf
    intro hallow
    rw [key0]
    constructor
    · rw [hadd]
      exact rlLookup_rlSet _ _ _
    · omega

/-- C10 (witness): the amended theorem at weight -3 on a live bucket
with count 0: the consume is allowed and the count becomes 1. -/
theorem C10_amended_weight_floor_witness :
    trimStr "k" ≠ ""
      ∧ (0 : Int) < 5
      ∧ (0 : Int) < 50
      ∧ rlLookup (cleanupExpired [("k", { count := JsNum.num 0, resetAt := 100 })] 8000 0)
          (trimStr "k") = some { count := JsNum.num 0, resetAt := 100 }
      ∧ ¬(({ count := JsNum.num 0, resetAt := 100 } : RLBucket).resetAt ≤ (0 : Int))
      ∧ ({ count := JsNum.num 0, resetAt := 100 } : RLBucket).count = JsNum.num 0
      ∧ (effectiveWeight (JsVal.num (-3)) = JsNum.num (max 1 (-3))
          ∧ effectiveWeight JsVal.undef = JsNum.num 1
          ∧ effectiveWeight JsVal.nan = JsNum.num 1
          ∧ ((consumeRateLimit [("k", { count := JsNum.num 0, resetAt := 100 })] "k" 5 50
                (JsVal.num (-3)) 0).snd.allowed = true →
              rlLookup (consumeRateLimit [("k", { count := JsNum.num 0, resetAt := 100 })] "k" 5 50
                  (JsVal.num (-3)) 0).fst (trimStr "k")
                  = some { count := JsNum.num (0 + max 1 (-3)), resetAt := 100 }
                ∧ (0 : Int) + 1 ≤ 0 + max 1 (-3))) :=
  ⟨by decide, by decide, by decide, by decide, by decide, by decide,
    C10_amended_weight_floor [("k", { count := JsNum.num 0, resetAt := 100 })] "k" 5 50 0 (-3)
      { count := JsNum.num 0, resetAt := 100 } 0
      (by decide) (by decide) (by decide) (by decide) (by decide) (by decide)⟩

/-! ## Chat handler (api/juleha-chat.js) -/

/-- One raw chat message as the handler sees it after the JavaScript
`String(...)` coercions of `entry.role` and `entry.content`; a null
entry behaves as a message with both fields empty. -/
structure RawMessage where
  role : String
  content : String
deriving Repr, DecidableEq

/-- Embedding of `ALLOWED_ROLES`: note that the deployed handler also
accepts the `system` role from the client. -/
def ALLOWED_ROLES : List String := ["system", "user", "assistant"]

/-- Embedding of `MAX_MESSAGES`. -/
def MAX_MESSAGES : Nat := 40

/-- Model of `array.slice(-n)`. -/
def takeLast {α : Type} (l : List α) (n : Nat) : List α :=
  l.drop (l.length - n)

/-- Embedding of `sanitizeMessages`: a non-array payload becomes the
empty list; otherwise the last `MAX_MESSAGES` entries are trimmed and
filtered to allowed roles with non-empty content. -/
def sanitizeMessages (raw : Option (List RawMessage)) : List RawMessage :=
  match raw with
  | none => []
  | some msgs =>
    ((takeLast msgs MAX_MESSAGES).map
        (fun e => { role := trimStr e.role, content := trimStr e.content }))
      |>.filter (fun e => ALLOWED_ROLES.contains e.role ∧ 0 < e.content.length)

/-- One element of an upstream content array: a plain string, an object
with an optional string `text` field, or anything else. -/
inductive RPart where
  | str (s : String)
  | obj (text : Option String)
  | other
deriving Repr, DecidableEq

/-- Upstream `message.content`: a string, an array of parts, or any
other shape. -/
inductive RContent where
  | str (s : String)
  | parts (l : List RPart)
  | other
deriving Repr, DecidableEq

/-- The per-part extraction inside `extractAssistantText`. -/
def rPartText : RPart → String
  | RPart.str s => s
  | RPart.obj (some t) => t
  | RPart.obj none => ""
  | RPart.other => ""

/-- Embedding of `extractAssistantText`. -/
def extractAssistantText : RContent → String
  | RContent.str s => trimStr s
  | RContent.parts l =>
    trimStr (String.intercalate "\n" ((l.map rPartText).filter (fun s => s ≠ "")))
  | RContent.other => ""

structure UMessage where
  content : RContent
deriving Repr, DecidableEq

structure UChoice where
  message : Option UMessage
deriving Repr, DecidableEq

structure UPayload where
  choices : Option (List UChoice)
deriving Repr, DecidableEq

/-- The content selection of `requestWithRoute`: first choice message
content when present, else the empty string. -/
def assistantContentOf (p : UPayload) : RContent :=
  match p.choices with
  | some (c :: _) =>
    match c.message with
    | some m => m.content
    | none => RContent.str ""
  | _ => RContent.str ""

structure ChatSuccess where
  assistantText : String
  routeLabel : String
deriving Repr, DecidableEq

/-- Embedding of the 2xx path of `requestWithRoute`: extract the
assistant text, reject empty text, and otherwise return it together
with the route label.  No transformation other than extraction is
applied to the text. -/
def requestWithRouteOk (routeLabel : String) (payload : UPayload) : Except String ChatSuccess :=
  let assistantText := extractAssistantText (assistantContentOf payload)
  if assistantText = "" then Except.error "OpenRouter returned an empty response."
  else Except.ok { assistantText := assistantText, routeLabel := routeLabel }

/-- The route loop of the handler: each route either fails (its error
is collected) or yields the first successful result.  A route outcome
is the fetch result: an error for network/HTTP failures, or the parsed
payload. -/
def fanOutRoutes : List (String × Except String UPayload) → Option ChatSuccess
  | [] => none
  | (label, outcome) :: rest =>
    match outcome with
    | Except.error _ => fanOutRoutes rest
    | Except.ok payload =>
      match requestWithRouteOk label payload with
      | Except.error _ => fanOutRoutes rest
      | Except.ok r => some r

/-- The five responses the handler can produce. -/
inductive HandlerResponse where
  | methodNotAllowed
  | badRequest
  | noRoutes
  | success (body : ChatSuccess)
  | allFailed
deriving Repr, DecidableEq

/-- HTTP status of each handler response. -/
def handlerStatus : HandlerResponse → Nat
  | HandlerResponse.methodNotAllowed => 405
  | HandlerResponse.badRequest => 400
  | HandlerResponse.noRoutes => 500
  | HandlerResponse.success _ => 200
  | HandlerResponse.allFailed => 502

/-- Embedding of the exported `handler` of api/juleha-chat.js: method
gate, sanitization with 400 on an empty result, 500 without routes,
then the fan-out.  Routes and their upstream outcomes are passed in
(they come from the environment and the network). -/
def julehaChatHandler (method : String) (bodyMessages : Option (List RawMessage))
    (routes : List (String × Except String UPayload)) : HandlerResponse :=
  if method ≠ "POST" then HandlerResponse.methodNotAllowed
  else
    let messages := sanitizeMessages bodyMessages
    if messages.isEmpty then HandlerResponse.badRequest
    else if routes.isEmpty then HandlerResponse.noRoutes
    else
      match fanOutRoutes routes with
      | some r => HandlerResponse.success r
      | none => HandlerResponse.allFailed

/-- Substring test used to state the redaction claims. -/
def strContainsSubstr (s pat : String) : Bool :=
  (s.toList.tails).any (fun t => isPrefixOfL pat.toList t)

example : strContainsSubstr "here is sk-AAAAAAAAAAAA" "sk-AAAAAAAAAAAA" = true := by decide
example : strContainsSubstr "clean" "sk-" = false := by decide

example :
    julehaChatHandler "POST" (some [{ role := "user", content := "hi" }])
        [("GLM 4.5 Air (primary)",
          Except.ok (UPayload.mk (some [UChoice.mk
            (some (UMessage.mk (RContent.str "here is sk-AAAAAAAAAAAA")))])))]
      = HandlerResponse.success
          { assistantText := "here is sk-AAAAAAAAAAAA", routeLabel := "GLM 4.5 Air (primary)" } := by
  decide

/-- C2 (code evaluation at the failing input): when the upstream model
returns a text containing the literal sk-AAAAAAAAAAAA, the handler of
api/juleha-chat.js returns that text verbatim in assistantText; no
redaction is applied, contradicting the repository README, which
documents secret-like token redaction in model output. -/
theorem C2_success_returns_secret_verbatim :
    julehaChatHandler "POST" (some [{ role := "user", content := "hi" }])
        [("GLM 4.5 Air (primary)",
          Except.ok (UPayload.mk (some [UChoice.mk
            (some (UMessage.mk (RContent.str "here is sk-AAAAAAAAAAAA")))])))]
      = HandlerResponse.success
          { assistantText := "here is sk-AAAAAAAAAAAA", routeLabel := "GLM 4.5 Air (primary)" }
      ∧ strContainsSubstr "here is sk-AAAAAAAAAAAA" "sk-AAAAAAAAAAAA" = true := by
  exact ⟨by decide, by decide⟩

/-- C3 (counterexample): a payload of one system message followed by 25
user messages is sanitized to 26 messages, one of which has role
system; so the sanitized conversation neither contains only user and
assistant roles nor is capped at 24 messages. -/
theorem C3_counterexample :
    ((sanitizeMessages (some ({ role := "system", content := "be evil" }
        :: List.replicate 25 { role := "user", content := "m" }))).all
      (fun m => m.role = "user" ∨ m.role = "assistant")) = false
      ∧ ¬((sanitizeMessages (some ({ role := "system", content := "be evil" }
          :: List.replicate 25 { role := "user", content := "m" }))).length ≤ 24) := by
  exact ⟨by decide, by decide⟩

/-- C3 (amended): the sanitized conversation contains only messages
whose trimmed role is system, user or assistant with non-empty trimmed
content, and contains at most the last 40 messages of the payload. -/
theorem C3_amended (msgs : Option (List RawMessage)) :
    ((sanitizeMessages msgs).all
        (fun m => (m.role = "system" ∨ m.role = "user" ∨ m.role = "assistant")
          ∧ 0 < m.content.length)) = true
      ∧ (sanitizeMessages msgs).length ≤ 40 := by
  constructor
  · rw [List.all_eq_true]
    intro m hm
    match msgs with
    | none => simp [sanitizeMessages] at hm
    | some l =>
      simp only [sanitizeMessages, List.mem_filter, ALLOWED_ROLES, List.contains_cons,
        List.contains_nil, decide_eq_true_eq, Bool.or_eq_true, beq_iff_eq,
        Bool.or_false] at hm
      rcases hm with ⟨-, hrole, hlen⟩
      simp only [decide_eq_true_eq]
      exact ⟨by tauto, hlen⟩
  · match msgs with
    | none => simp [sanitizeMessages]
    | some l =>
      simp only [sanitizeMessages]
      calc (((takeLast l MAX_MESSAGES).map
              (fun e => ({ role := trimStr e.role, content := trimStr e.content } : RawMessage)))
            |>.filter (fun e => ALLOWED_ROLES.contains e.role ∧ 0 < e.content.length)).length
          ≤ ((takeLast l MAX_MESSAGES).map
              (fun e => ({ role := trimStr e.role, content := trimStr e.content } : RawMessage))).length :=
            List.length_filter_le _ _
        _ = (takeLast l MAX_MESSAGES).length := List.length_map _ _
        _ ≤ 40 := by
            simp only [takeLast, List.length_drop, MAX_MESSAGES]
            omega

/-- C4 (counterexample): a payload consisting solely of one assistant
message is not rejected with 400: with no routes configured the handler
answers 500, and the sanitized list is non-empty with no user
message. -/
theorem C4_counterexample :
    julehaChatHandler "POST" (some [{ role := "assistant", content := "hello" }]) []
        = HandlerResponse.noRoutes
      ∧ handlerStatus (julehaChatHandler "POST"
          (some [{ role := "assistant", content := "hello" }]) []) = 500
      ∧ julehaChatHandler "POST" (some [{ role := "assistant", content := "hello" }]) []
          ≠ HandlerResponse.badRequest
      ∧ ((sanitizeMessages (some [{ role := "assistant", content := "hello" }])).all
          (fun m => m.role ≠ "user")) = true
      ∧ (sanitizeMessages (some [{ role := "assistant", content := "hello" }])).length = 1 := by
  exact ⟨by decide, by decide, by decide, by decide, by decide⟩

/-- C4 (amended): the handler responds 400 exactly when the sanitized
message list is empty, that is when the payload is not a non-empty
array of messages with at least one allowed-role, non-empty-content
entry; the presence of a user-role message is not required. -/
theorem C4_amended (msgs : Option (List RawMessage))
    (routes : List (String × Except String UPayload)) :
    julehaChatHandler "POST" msgs routes = HandlerResponse.badRequest
      ↔ sanitizeMessages msgs = [] := by
  simp only [julehaChatHandler]
  have hpost : ¬(("POST" : String) ≠ "POST") := by simp
  rw [if_neg hpost]
  by_cases he : (sanitizeMessages msgs).isEmpty
  · simp [he, List.isEmpty_iff.mp he]
  · rw [if_neg ?hneg]
    case hneg => simpa using he
    have hne : sanitizeMessages msgs ≠ [] := by
      intro h
      exact he (by simp [h])
    constructor
    · intro h
      exfalso
      revert h
      split
      · simp
      · split <;> simp
    · intro h
      exact absurd h hne

/-! ## Link store (api/_link-store.js) -/

/-- Model of the WHATWG URL parser for the absolute http(s)-style URLs
these sources handle: the fragment is removed, the scheme is lowercased
and a root path slash is appended when the authority part has no path;
other shapes are treated as parse failures.  Returns the scheme and the
serialized href. -/
def urlParseHref (s : String) : Option (String × String) :=
  let noHash := (splitOnSeq s.toList ['#']).headD s.toList
  match splitOnSeq noHash [':', '/', '/'] with
  | [schemePart, rest] =>
    if schemePart ≠ [] ∧ schemePart.all Char.isAlpha ∧ rest ≠ [] then
      let scheme := String.mk (schemePart.map Char.toLower) ++ ":"
      let href := scheme ++ "//" ++ String.mk (if rest.contains '/' then rest else rest ++ ['/'])
      some (scheme, href)
    else none
  | _ => none

/-- Embedding of `normalizeUrl`: empty on parse failure or non-http(s)
scheme; otherwise the href with the fragment removed and one trailing
slash stripped. -/
def normalizeUrl (rawUrl : String) : String :=
  let candidate := trimStr rawUrl
  if candidate = "" then ""
  else
    match urlParseHref candidate with
    | none => ""
    | some pr =>
      if pr.fst = "http:" ∨ pr.fst = "https:" then
        if endsWithStr pr.snd "/" then String.mk pr.snd.toList.dropLast else pr.snd
      else ""

def ALLOWED_ABILITIES : List String :=
  ["text", "image", "video", "audio", "code", "automation", "learning"]

def ALLOWED_PRICING_TIERS : List String := ["free", "trial", "paid"]

def ALLOWED_TOOL_TAGS : List String := ["watermarked"]

def MAX_BACKUPS : Nat := 30

/-- Model of the JavaScript `a || b` idiom on strings: the left operand
unless it is empty. -/
def firstNonEmpty (a b : String) : String :=
  if a ≠ "" then a else b

/-- Model of `.replace(/\s+/g, "-")` on an already-trimmed string. -/
def collapseWhitespaceDash (s : String) : String :=
  String.intercalate "-"
    (((s.toList.splitOnP Char.isWhitespace).map String.mk).filter (fun p => p ≠ ""))

/-- The dedup-and-filter loop of `normalizeAbilities`. -/
def normalizeAbilitiesGo : List String → List String → List String
  | [], _ => []
  | a :: rest, seen =>
    let ability := toLowerStr (trimStr a)
    if ALLOWED_ABILITIES.contains ability ∧ ¬ seen.contains ability then
      ability :: normalizeAbilitiesGo rest (ability :: seen)
    else
      normalizeAbilitiesGo rest seen

/-- Embedding of `normalizeAbilities`. -/
def normalizeAbilities (raw : List String) : List String :=
  normalizeAbilitiesGo raw []

/-- Embedding of `normalizePricing`. -/
def normalizePricing (rawPricing : String) : String :=
  let normalized := collapseWhitespaceDash (toLowerStr (trimStr rawPricing))
  if ["full-free", "totally-free", "gratis"].contains normalized then "free"
  else if ["free-trial", "freemium", "uji-coba"].contains normalized then "trial"
  else if ["full-paid", "berbayar", "premium"].contains normalized then "paid"
  else if ALLOWED_PRICING_TIERS.contains normalized then normalized
  else "trial"

/-- The dedup-and-filter loop of `normalizeTags`. -/
def normalizeTagsGo : List String → List String → List String
  | [], _ => []
  | t :: rest, seen =>
    let tag := collapseWhitespaceDash (toLowerStr (trimStr t))
    if ALLOWED_TOOL_TAGS.contains tag ∧ ¬ seen.contains tag then
      tag :: normalizeTagsGo rest (tag :: seen)
    else
      normalizeTagsGo rest seen

/-- Embedding of `normalizeTags`. -/
def normalizeTags (raw : List String) : List String :=
  normalizeTagsGo raw []

/-- Embedding of `abilitiesToCsv`. -/
def abilitiesToCsv (raw : List String) : String :=
  String.intercalate "," (normalizeAbilities raw)

/-- Embedding of `csvToAbilities`. -/
def csvToAbilities (rawCsv : String) : List String :=
  normalizeAbilities
    (((rawCsv.toList.splitOn ',').map (fun p => toLowerStr (trimStr (String.mk p))))
      |>.filter (fun p => p ≠ ""))

/-- Embedding of `tagsToCsv`. -/
def tagsToCsv (raw : List String) : String :=
  String.intercalate "," (normalizeTags raw)

/-- Embedding of `csvToTags`. -/
def csvToTags (rawCsv : String) : List String :=
  normalizeTags
    (((rawCsv.toList.splitOn ',').map (fun p => toLowerStr (trimStr (String.mk p))))
      |>.filter (fun p => p ≠ ""))

/-- One row of `ai_main_links` with the columns the store reads and
writes. -/
structure MainRow where
  name : String
  url : String
  description : String
  abilitiesCsv : String
  pricingTier : String
  tagsCsv : String
  featuresJson : String
  isFree : Bool
  hasTrial : Bool
  isPaid : Bool
  pricingText : String
  faviconUrl : String
  thumbnailUrl : String
  pendingEnrichment : Bool
  lastCheckedAt : Option Int
  source : String
  createdAt : Int
  updatedAt : Int
deriving Repr, DecidableEq

/-- The view produced by `rowToLink`; the JSON decoding of the features
blob is modelled by keeping the serialized text. -/
structure LinkView where
  name : String
  url : String
  description : String
  abilities : List String
  pricing : String
  tags : List String
  featuresJson : String
  pricingText : String
  isFree : Bool
  hasTrial : Bool
  isPaid : Bool
  faviconUrl : String
  thumbnailUrl : String
  pendingEnrichment : Bool
  lastCheckedAt : Option Int
deriving Repr, DecidableEq

/-- Embedding of `rowToLink`. -/
def rowToLink (row : MainRow) : LinkView :=
  { name := row.name
    url := row.url
    description := row.description
    abilities := csvToAbilities row.abilitiesCsv
    pricing := normalizePricing row.pricingTier
    tags := csvToTags row.tagsCsv
    featuresJson := row.featuresJson
    pricingText := row.pricingText
    isFree := row.isFree
    hasTrial := row.hasTrial
    isPaid := row.isPaid
    faviconUrl := row.faviconUrl
    thumbnailUrl := row.thumbnailUrl
    pendingEnrichment := row.pendingEnrichment
    lastCheckedAt := row.lastCheckedAt }

/-- Lexicographic comparison on character lists for the ORDER BY
LOWER(name) sort. -/
def charListLe : List Char → List Char → Bool
  | [], _ => true
  | _ :: _, [] => false
  | a :: as, b :: bs => if a = b then charListLe as bs else decide (a < b)

/-- Sort key order of `getMainLinks`. -/
def mainRowLe (a b : MainRow) : Bool :=
  charListLe (toLowerStr a.name).toList (toLowerStr b.name).toList

def insertSortedMainRow (r : MainRow) : List MainRow → List MainRow
  | [] => [r]
  | x :: xs => if mainRowLe r x then r :: x :: xs else x :: insertSortedMainRow r xs

/-- Insertion sort modelling the ORDER BY clause. -/
def sortMainRows : List MainRow → List MainRow
  | [] => []
  | x :: xs => insertSortedMainRow x (sortMainRows xs)

/-- Embedding of `getMainLinks`: rows ordered by lowercase name, mapped
through `rowToLink`. -/
def getMainLinks (mains : List MainRow) : List LinkView :=
  (sortMainRows mains).map rowToLink

/-- One row of `ai_link_backups`; the snapshot JSON is modelled as the
serialized link list itself. -/
structure BackupRow where
  backupNumber : Nat
  snapshot : List LinkView
  createdAt : Int
deriving Repr, DecidableEq

/-- The `COALESCE(MAX(backup_number), 0)` aggregate. -/
def maxBackupNumber (backups : List BackupRow) : Nat :=
  backups.foldl (fun acc b => max acc b.backupNumber) 0

/-- Embedding of `createRollingBackup`: one slot, `(max mod 30) + 1`, is
deleted and rewritten with the given snapshot. -/
def createRollingBackup (backups : List BackupRow) (links : List LinkView) (now : Int) :
    BackupRow × List BackupRow :=
  let maxNumber := maxBackupNumber backups
  let backupNumber := maxNumber % MAX_BACKUPS + 1
  let row : BackupRow := { backupNumber := backupNumber, snapshot := links, createdAt := now }
  (row, (backups.filter (fun b => b.backupNumber ≠ backupNumber)) ++ [row])

/-- One row of `ai_candidate_links` with the columns the store reads and
writes. -/
structure CandRow where
  id : Nat
  name : String
  url : String
  canonicalUrl : String
  finalUrl : String
  description : String
  abilitiesCsv : String
  pricingTier : String
  tagsCsv : String
  featuresJson : String
  isFree : Bool
  hasTrial : Bool
  isPaid : Bool
  pricingText : String
  faviconUrl : String
  thumbnailUrl : String
  pendingEnrichment : Bool
  lastCheckedAt : Option Int
  httpStatus : Int
  contentType : String
  verifiedAt : Option Int
  evidenceUrlsJson : String
  evidenceJson : String
  status : String
  discoveredCount : Int
  discoveredBy : String
  submittedIpHash : String
  submittedSessionHash : String
  captureReason : String
  lastSeenAt : Int
  mergedAt : Option Int
  createdAt : Int
  updatedAt : Int
deriving Repr, DecidableEq

/-- The candidate object handed to `upsertCandidate`, after JavaScript
string coercions; absent object or array fields are `none` and the JSON
serializations of `evidence`, `evidenceUrls` and `features` are carried
as the serialized text. -/
structure CandidateInput where
  canonicalUrl : String
  url : String
  finalUrl : String
  name : String
  description : String
  abilities : List String
  pricing : String
  pricingTier : String
  priceTier : String
  tags : List String
  evidence : Option String
  evidenceUrls : Option String
  discoveredBy : String
  submittedIpHash : String
  submittedSessionHash : String
  captureReason : String
  contentType : String
  httpStatus : Option Int
  verifiedAt : Option Int
  features : Option String
  pricingText : String
  faviconUrl : String
  thumbnailUrl : String
  isFree : Bool
  hasTrial : Bool
  isPaid : Bool
  pendingEnrichment : Bool
  lastCheckedAt : Option Int
deriving Repr, DecidableEq

/-- The canonical URL computed at the top of `upsertCandidate`. -/
def upsertCanonicalUrl (c : CandidateInput) : String :=
  normalizeUrl (firstNonEmpty c.canonicalUrl c.url)

/-- Embedding of `upsertCandidate`: on a fresh canonical URL a pending
row is inserted; on conflict the ON CONFLICT DO UPDATE column rules are
applied to every row holding that canonical URL (the unique index makes
it at most one).  `now` models NOW() and `newId` the serial id.  The
returned flag is the `inserted` field of the result. -/
def upsertCandidate (db : List CandRow) (c : CandidateInput) (now : Int) (newId : Nat) :
    List CandRow × Bool :=
  let canonicalUrl := upsertCanonicalUrl c
  if canonicalUrl = "" then (db, false)
  else
    let finalUrl := firstNonEmpty (normalizeUrl (firstNonEmpty c.finalUrl canonicalUrl)) canonicalUrl
    let url := firstNonEmpty (normalizeUrl (firstNonEmpty c.url canonicalUrl)) canonicalUrl
    let name := firstNonEmpty (trimStr c.name) canonicalUrl
    let description := trimStr c.description
    let abilitiesCsv := abilitiesToCsv c.abilities
    let pricingTier := normalizePricing (firstNonEmpty c.pricing (firstNonEmpty c.pricingTier c.priceTier))
    let tagsCsv := tagsToCsv c.tags
    let evidenceJson := c.evidence.getD "{}"
    let evidenceUrlsJson := c.evidenceUrls.getD "[]"
    let discoveredBy := firstNonEmpty (trimStr c.discoveredBy) "juleha"
    let submittedIpHash := trimStr c.submittedIpHash
    let submittedSessionHash := trimStr c.submittedSessionHash
    let captureReason := firstNonEmpty (trimStr c.captureReason) "verified-link"
    let contentType := takeStr (trimStr c.contentType) 120
    let httpStatus := c.httpStatus.getD 0
    let verifiedAtIns : Option Int := some (c.verifiedAt.getD now)
    let featuresJson := c.features.getD "{}"
    let pricingText := takeStr (trimStr c.pricingText) 500
    let faviconUrl := normalizeUrl c.faviconUrl
    let thumbnailUrl := normalizeUrl c.thumbnailUrl
    let newRow : CandRow :=
      { id := newId
        name := name
        url := url
        canonicalUrl := canonicalUrl
        finalUrl := finalUrl
        description := description
        abilitiesCsv := abilitiesCsv
        pricingTier := pricingTier
        tagsCsv := tagsCsv
        featuresJson := featuresJson
        isFree := c.isFree
        hasTrial := c.hasTrial
        isPaid := c.isPaid
        pricingText := pricingText
        faviconUrl := faviconUrl
        thumbnailUrl := thumbnailUrl
        pendingEnrichment := c.pendingEnrichment
        lastCheckedAt := c.lastCheckedAt
        httpStatus := httpStatus
        contentType := contentType
        verifiedAt := verifiedAtIns
        evidenceUrlsJson := evidenceUrlsJson
        evidenceJson := evidenceJson
        status := "pending"
        discoveredCount := 1
        discoveredBy := discoveredBy
        submittedIpHash := submittedIpHash
        submittedSessionHash := submittedSessionHash
        captureReason := captureReason
        lastSeenAt := now
        mergedAt := none
        createdAt := now
        updatedAt := now }
    match db.find? (fun r => r.canonicalUrl = canonicalUrl) with
    | none => (db ++ [newRow], true)
    | some _ =>
      (db.map (fun r =>
        if r.canonicalUrl = canonicalUrl then
          { r with
            name := if r.name = "" then name else r.name
            url := url
            finalUrl := if finalUrl ≠ "" then finalUrl else r.finalUrl
            description := if r.description = "" then description else r.description
            abilitiesCsv := if r.abilitiesCsv = "" then abilitiesCsv else r.abilitiesCsv
            pricingTier := if r.pricingTier = "" then pricingTier else r.pricingTier
            tagsCsv := if r.tagsCsv = "" then tagsCsv else r.tagsCsv
            featuresJson := if featuresJson ≠ "{}" then featuresJson else r.featuresJson
            isFree := c.isFree
            hasTrial := c.hasTrial
            isPaid := c.isPaid
            pricingText := if pricingText ≠ "" then pricingText else r.pricingText
            faviconUrl := if faviconUrl ≠ "" then faviconUrl else r.faviconUrl
            thumbnailUrl := if thumbnailUrl ≠ "" then thumbnailUrl else r.thumbnailUrl
            pendingEnrichment := c.pendingEnrichment
            lastCheckedAt :=
              match c.lastCheckedAt with
              | some v => some v
              | none => r.lastCheckedAt
            httpStatus := if 0 < httpStatus then httpStatus else r.httpStatus
            contentType := if contentType ≠ "" then contentType else r.contentType
            verifiedAt :=
              match verifiedAtIns with
              | some v => some v
              | none => r.verifiedAt
            evidenceUrlsJson := evidenceUrlsJson
            evidenceJson := evidenceJson
            status := if r.status = "pending" then r.status else "pending"
            discoveredCount := r.discoveredCount + 1
            discoveredBy := discoveredBy
            submittedIpHash := if submittedIpHash ≠ "" then submittedIpHash else r.submittedIpHash
            submittedSessionHash :=
              if submittedSessionHash ≠ "" then submittedSessionHash else r.submittedSessionHash
            captureReason := if captureReason ≠ "" then captureReason else r.captureReason
            lastSeenAt := now
            updatedAt := now }
        else r), true)

/-- The persisted store state the merge flow touches. -/
structure StoreDB where
  mains : List MainRow
  candidates : List CandRow
  backups : List BackupRow
deriving Repr, DecidableEq

structure MergeResult where
  backup : BackupRow
  mergedCount : Nat
  skippedExistingCount : Nat
  pendingCount : Nat
  totalLinks : Nat
deriving Repr, DecidableEq

def insertByCreatedAt (r : CandRow) : List CandRow → List CandRow
  | [] => [r]
  | x :: xs => if decide (r.createdAt < x.createdAt) then r :: x :: xs else x :: insertByCreatedAt r xs

/-- Stable insertion sort modelling ORDER BY created_at ASC. -/
def sortByCreatedAt : List CandRow → List CandRow
  | [] => []
  | x :: xs => insertByCreatedAt x (sortByCreatedAt xs)

/-- The pending-candidate query of `mergePendingCandidates`. -/
def pendingCandidatesOf (db : StoreDB) : List CandRow :=
  sortByCreatedAt (db.candidates.filter (fun c => c.status = "pending"))

/-- The `INSERT INTO ai_main_links ... SELECT` values built from one
candidate row inside the merge loop. -/
def mainRowFromCandidate (row : CandRow) (normalizedUrl : String) (now : Int) : MainRow :=
  { name := firstNonEmpty (trimStr row.name) normalizedUrl
    url := normalizedUrl
    description := trimStr row.description
    abilitiesCsv := trimStr row.abilitiesCsv
    pricingTier := normalizePricing row.pricingTier
    tagsCsv := tagsToCsv (csvToTags row.tagsCsv)
    featuresJson := firstNonEmpty row.featuresJson "{}"
    isFree := row.isFree
    hasTrial := row.hasTrial
    isPaid := row.isPaid
    pricingText := row.pricingText
    faviconUrl := row.faviconUrl
    thumbnailUrl := row.thumbnailUrl
    pendingEnrichment := row.pendingEnrichment
    lastCheckedAt := row.lastCheckedAt
    source := "candidate-merge"
    createdAt := now
    updatedAt := now }

/-- The `ON CONFLICT (url) DO NOTHING` insert: the row is appended only
when no existing row carries the same url. -/
def insertMainConflictDoNothing (mains : List MainRow) (row : MainRow) : List MainRow :=
  if mains.any (fun m => m.url = row.url) then mains else mains ++ [row]

/-- The per-id candidate status updates issued inside the merge loop;
`mergedAt = none` leaves the merged_at column unchanged (the rejected
branch). -/
def setCandidateStatus (cands : List CandRow) (id : Nat) (status : String)
    (mergedAt : Option Int) (now : Int) : List CandRow :=
  cands.map (fun c =>
    if c.id = id then
      { c with
        status := status
        mergedAt :=
          match mergedAt with
          | some v => some v
          | none => c.mergedAt
        updatedAt := now }
    else c)

/-- Running state of the merge loop: the main rows, the candidate rows,
the in-memory url set, and the two counters. -/
structure MergeLoopState where
  mains : List MainRow
  candidates : List CandRow
  seen : List String
  mergedCount : Nat
  skippedExistingCount : Nat
deriving Repr, DecidableEq

/-- The candidate loop of `mergePendingCandidates`. -/
def mergeLoop (now : Int) : List CandRow → MergeLoopState → MergeLoopState
  | [], st => st
  | row :: rest, st =>
    let normalizedUrl := normalizeUrl row.url
    if normalizedUrl = "" then
      mergeLoop now rest
        { st with candidates := setCandidateStatus st.candidates row.id "rejected" none now }
    else if st.seen.contains normalizedUrl then
      mergeLoop now rest
        { st with
          candidates := setCandidateStatus st.candidates row.id "merged" (some now) now
          skippedExistingCount := st.skippedExistingCount + 1 }
    else
      mergeLoop now rest
        { st with
          mains := insertMainConflictDoNothing st.mains (mainRowFromCandidate row normalizedUrl now)
          candidates := setCandidateStatus st.candidates row.id "merged" (some now) now
          seen := normalizedUrl :: st.seen
          mergedCount := st.mergedCount + 1 }

/-- The `new Set(currentLinks.map(normalizeUrl).filter(Boolean))` url
set, modelled as a list. -/
def mainUrlSetOf (links : List LinkView) : List String :=
  (links.map (fun l => normalizeUrl l.url)).filter (fun u => u ≠ "")

/-- Embedding of `mergePendingCandidates`: snapshot backup first, then
the candidate loop, then the result counters. -/
def mergePendingCandidates (db : StoreDB) (now : Int) : StoreDB × MergeResult :=
  let currentLinks := getMainLinks db.mains
  let bp := createRollingBackup db.backups currentLinks now
  let pending := pendingCandidatesOf db
  let final := mergeLoop now pending
    { mains := db.mains, candidates := db.candidates, seen := mainUrlSetOf currentLinks,
      mergedCount := 0, skippedExistingCount := 0 }
  ({ mains := final.mains, candidates := final.candidates, backups := bp.snd },
    { backup := bp.fst,
      mergedCount := final.mergedCount,
      skippedExistingCount := final.skippedExistingCount,
      pendingCount := pending.length,
      totalLinks := (getMainLinks final.mains).length })

/-- Helper: membership through the created-at insertion step. -/
lemma mem_insertByCreatedAt (r x : CandRow) (l : List CandRow) :
    x ∈ insertByCreatedAt r l ↔ x = r ∨ x ∈ l := by
  induction l with
  | nil => simp [insertByCreatedAt]
  | cons a rest ih =>
    by_cases h : r.createdAt < a.createdAt
    · simp [insertByCreatedAt, h]
    · simp [insertByCreatedAt, h, ih]
      tauto

/-- Helper: the created-at sort is a permutation for membership. -/
lemma mem_sortByCreatedAt (x : CandRow) (l : List CandRow) :
    x ∈ sortByCreatedAt l ↔ x ∈ l := by
  induction l with
  | nil => simp [sortByCreatedAt]
  | cons a rest ih =>
    simp [sortByCreatedAt, mem_insertByCreatedAt, ih]

/-- Helper: a candidate row with a different id passes through a status
update untouched. -/
lemma mem_setCandidateStatus (cands : List CandRow) (id0 : Nat) (status : String)
    (mergedAt : Option Int) (now : Int) (cand : CandRow)
    (hmem : cand ∈ cands) (hid : cand.id ≠ id0) :
    cand ∈ setCandidateStatus cands id0 status mergedAt now := by
  have := List.mem_map_of_mem (fun c : CandRow =>
    if c.id = id0 then
      { c with
        status := status
        mergedAt :=
          match mergedAt with
          | some v => some v
          | none => c.mergedAt
        updatedAt := now }
    else c) hmem
  simpa [setCandidateStatus, if_neg hid] using this

/-- Helper: the merge loop leaves every candidate row whose id is not
among the processed rows untouched. -/
lemma mergeLoop_keeps_candidate (now : Int) (pending : List CandRow) (st : MergeLoopState)
    (cand : CandRow) (hmem : cand ∈ st.candidates)
    (hid : ∀ r ∈ pending, r.id ≠ cand.id) :
    cand ∈ (mergeLoop now pending st).candidates := by
  induction pending generalizing st with
  | nil => simpa [mergeLoop] using hmem
  | cons row rest ih =>
    have hrow : row.id ≠ cand.id := hid row (List.mem_cons_self row rest)
    have hrest : ∀ r ∈ rest, r.id ≠ cand.id := fun r hr => hid r (List.mem_cons_of_mem row hr)
    have hcand : cand.id ≠ row.id := fun h => hrow h.symm
    simp only [mergeLoop]
    split_ifs
    · exact ih _ (mem_setCandidateStatus st.candidates row.id "rejected" none now
        cand hmem hcand) hrest
    · exact ih _ (mem_setCandidateStatus st.candidates row.id "merged" (some now) now
        cand hmem hcand) hrest
    · exact ih _ (mem_setCandidateStatus st.candidates row.id "merged" (some now) now
        cand hmem hcand) hrest

/-- Helper: the conflict-do-nothing insert preserves uniqueness of the
url column. -/
lemma insertMain_nodup (mains : List MainRow) (row : MainRow)
    (h : (mains.map (fun m => m.url)).Nodup) :
    ((insertMainConflictDoNothing mains row).map (fun m => m.url)).Nodup := by
  unfold insertMainConflictDoNothing
  split
  · exact h
  next hany =>
    have hnot : row.url ∉ mains.map (fun m => m.url) := by
      intro hmem
      apply hany
      rcases List.mem_map.mp hmem with ⟨m, hm, hurl⟩
      exact List.any_eq_true.mpr ⟨m, hm, by simp [hurl]⟩
    simp only [List.map_append, List.map_cons, List.map_nil]
    rw [List.nodup_append]
    refine ⟨h, List.nodup_singleton _, ?_⟩
    intro a ha hb
    simp only [List.mem_singleton] at hb
    exact hnot (hb ▸ ha)

/-- Helper: the merge loop preserves uniqueness of the url column. -/
lemma mergeLoop_nodup (now : Int) (pending : List CandRow) (st : MergeLoopState)
    (h : (st.mains.map (fun m => m.url)).Nodup) :
    ((mergeLoop now pending st).mains.map (fun m => m.url)).Nodup := by
  induction pending generalizing st with
  | nil => simpa [mergeLoop] using h
  | cons row rest ih =>
    simp only [mergeLoop]
    split_ifs
    · exact ih _ h
    · exact ih _ h
    · exact ih _ (insertMain_nodup _ _ h)

/-- Helper: every main row after the merge loop either existed before
or carries a url that was not in the in-memory url set when the loop
started. -/
lemma mergeLoop_mains_origin (now : Int) (pending : List CandRow) (st : MergeLoopState) :
    ∀ m ∈ (mergeLoop now pending st).mains, m ∈ st.mains ∨ m.url ∉ st.seen := by
  induction pending generalizing st with
  | nil =>
    intro m hm
    simp only [mergeLoop] at hm
    exact Or.inl hm
  | cons row rest ih =>
    intro m hm
    simp only [mergeLoop] at hm
    split_ifs at hm with h1 h2
    · exact ih { st with
        candidates := setCandidateStatus st.candidates row.id "rejected" none now } m hm
    · exact ih { st with
        candidates := setCandidateStatus st.candidates row.id "merged" (some now) now
        skippedExistingCount := st.skippedExistingCount + 1 } m hm
    · have hn : ¬ st.seen.contains (normalizeUrl row.url) = true := h2
      rcases ih { st with
          mains := insertMainConflictDoNothing st.mains
            (mainRowFromCandidate row (normalizeUrl row.url) now)
          candidates := setCandidateStatus st.candidates row.id "merged" (some now) now
          seen := normalizeUrl row.url :: st.seen
          mergedCount := st.mergedCount + 1 } m hm with hin | hout
      · simp only at hin
        unfold insertMainConflictDoNothing at hin
        split at hin
        · exact Or.inl hin
        · rcases List.mem_append.mp hin with hold | hnew
          · exact Or.inl hold
          · simp only [List.mem_singleton] at hnew
            subst hnew
            right
            simp only [mainRowFromCandidate]
            intro hcontra
            exact hn (by simpa using hcontra)
      · simp only at hout
        right
        intro hcontra
        exact hout (List.mem_cons_of_mem _ hcontra)

/-- Helper: the skipped counter of the merge loop dominates the number
of pending candidates whose normalized url lies in any subset of the
initial url set. -/
lemma mergeLoop_skipped_ge (now : Int) (pending : List CandRow) (st : MergeLoopState)
    (S : List String)
    (hS : ∀ u ∈ S, u ∈ st.seen) (hSne : "" ∉ S) :
    st.skippedExistingCount + pending.countP (fun c => S.contains (normalizeUrl c.url))
      ≤ (mergeLoop now pending st).skippedExistingCount := by
  induction pending generalizing st with
  | nil => simp [mergeLoop]
  | cons row rest ih =>
    simp only [mergeLoop, List.countP_cons]
    by_cases h1 : normalizeUrl row.url = ""
    · rw [if_pos h1]
      have hhead : (S.contains (normalizeUrl row.url)) = false := by
        rw [h1]
        cases hc : S.contains "" with
        | false => rfl
        | true => exact absurd (by simpa using hc) hSne
      have hrec := ih { st with
        candidates := setCandidateStatus st.candidates row.id "rejected" none now } hS
      simp only at hrec
      simp only [hhead, decide_eq_true_eq]
      simp only [Bool.false_eq_true, if_false]
      omega
    · rw [if_neg h1]
      by_cases h2 : st.seen.contains (normalizeUrl row.url) = true
      · rw [if_pos h2]
        have hrec := ih { st with
          candidates := setCandidateStatus st.candidates row.id "merged" (some now) now
          skippedExistingCount := st.skippedExistingCount + 1 } hS
        simp only at hrec
        have hhead : (if S.contains (normalizeUrl row.url) = true then 1 else 0) ≤ 1 := by
          split <;> omega
        omega
      · rw [if_neg h2]
        have hhead : (S.contains (normalizeUrl row.url)) = false := by
          cases hc : S.contains (normalizeUrl row.url) with
          | false => rfl
          | true =>
            have hmem : normalizeUrl row.url ∈ S := by simpa using hc
            have hseen : normalizeUrl row.url ∈ st.seen := hS _ hmem
            exact absurd (by simpa using hseen) h2
        have hS2 : ∀ u ∈ S, u ∈ normalizeUrl row.url :: st.seen := fun u hu =>
          List.mem_cons_of_mem _ (hS u hu)
        have hrec := ih { st with
          mains := insertMainConflictDoNothing st.mains
            (mainRowFromCandidate row (normalizeUrl row.url) now)
          candidates := setCandidateStatus st.candidates row.id "merged" (some now) now
          seen := normalizeUrl row.url :: st.seen
          mergedCount := st.mergedCount + 1 } hS2
        simp only at hrec
        simp only [hhead, Bool.false_eq_true, if_false]
        omega

/-- C5 (amended): merged and rejected are not terminal under
upsertCandidate: a re-observation of the same canonical URL always
resets the row status to pending (the ON CONFLICT status CASE yields
pending in both branches) and overwrites the evidence and flag columns;
mergePendingCandidates, in contrast, leaves every non-pending candidate
row untouched. -/
theorem C5_amended_upsert_resets_status (db : List CandRow) (c : CandidateInput) (now : Int)
    (nid : Nat) (hc : upsertCanonicalUrl c ≠ "") :
    (∀ r ∈ (upsertCandidate db c now nid).fst,
        r.canonicalUrl = upsertCanonicalUrl c → r.status = "pending")
      ∧ (∀ (db2 : StoreDB) (now2 : Int),
          (db2.candidates.map (fun x => x.id)).Nodup →
          ∀ cand ∈ db2.candidates, cand.status ≠ "pending" →
            cand ∈ (mergePendingCandidates db2 now2).fst.candidates) := by
  constructor
  · simp only [upsertCandidate]
    rw [if_neg hc]
    rcases hfind : db.find? (fun r => r.canonicalUrl = upsertCanonicalUrl c) with _ | e
    · rw [hfind]
      intro r hr hcanon
      rcases List.mem_append.mp hr with hold | hnew
      · exfalso
        rw [List.find?_eq_none] at hfind
        have := hfind r hold
        simp [hcanon] at this
      · simp only [List.mem_singleton] at hnew
        rw [hnew]
    · rw [hfind]
      intro r hr hcanon
      rcases List.mem_map.mp hr with ⟨x, hx, hfx⟩
      by_cases hxc : x.canonicalUrl = upsertCanonicalUrl c
      · rw [← hfx]
        simp only [if_pos hxc]
        split <;> simp_all
      · rw [← hfx] at hcanon ⊢
        simp only [if_neg hxc] at hcanon ⊢
        exact absurd hcanon hxc
  · intro db2 now2 hnodup cand hmem hstat
    simp only [mergePendingCandidates]
    apply mergeLoop_keeps_candidate now2 (pendingCandidatesOf db2) _ cand hmem
    intro r hr
    have hrmem : r ∈ db2.candidates ∧ r.status = "pending" := by
      have := (mem_sortByCreatedAt r _).mp hr
      have hfil := List.mem_filter.mp this
      exact ⟨hfil.1, by simpa using hfil.2⟩
    intro hideq
    have hreq : r = cand := by
      exact List.inj_on_of_nodup_map hnodup hrmem.1 hmem hideq
    rw [hreq] at hrmem
    exact hstat hrmem.2

/-- C7: mergePendingCandidates never inserts a duplicate MainLink:
uniqueness of the url column is preserved (conflict-do-nothing), every
row added by the merge has a url outside the pre-merge canonical url
set, and every pending candidate whose normalized URL already exists as
a MainLink canonical URL is counted in skippedExistingCount. -/
theorem C7_no_duplicate_mainlinks (db : StoreDB) (now : Int) :
    ((db.mains.map (fun m => m.url)).Nodup →
        (((mergePendingCandidates db now).fst.mains.map (fun m => m.url)).Nodup))
      ∧ (∀ m ∈ (mergePendingCandidates db now).fst.mains,
          m ∈ db.mains ∨ m.url ∉ mainUrlSetOf (getMainLinks db.mains))
      ∧ ((pendingCandidatesOf db).countP
            (fun c => (mainUrlSetOf (getMainLinks db.mains)).contains (normalizeUrl c.url))
          ≤ (mergePendingCandidates db now).snd.skippedExistingCount) := by
  have hSne : "" ∉ mainUrlSetOf (getMainLinks db.mains) := by
    intro h
    simp [mainUrlSetOf, List.mem_filter] at h
  refine ⟨?_, ?_, ?_⟩
  · intro h
    simp only [mergePendingCandidates]
    exact mergeLoop_nodup now _ _ h
  · intro m hm
    simp only [mergePendingCandidates] at hm
    exact mergeLoop_mains_origin now _ _ m hm
  · simp only [mergePendingCandidates]
    have := mergeLoop_skipped_ge now (pendingCandidatesOf db)
      { mains := db.mains, candidates := db.candidates,
        seen := mainUrlSetOf (getMainLinks db.mains),
        mergedCount := 0, skippedExistingCount := 0 }
      (mainUrlSetOf (getMainLinks db.mains)) (fun _ hu => hu) hSne
    simpa using this

/-- C8: before any MainLinks are created from candidates, exactly one
LinkBackup slot is written: its number is (max existing backup number
mod 30) + 1, its snapshot is the pre-merge main list, the backup table
changes only at that slot, and in particular max = 30 gives slot 1,
max = 29 gives slot 30, and max = 0 gives slot 1. -/
theorem C8_rolling_backup_slot (db : StoreDB) (now : Int) :
    (mergePendingCandidates db now).snd.backup.backupNumber
        = maxBackupNumber db.backups % 30 + 1
      ∧ (mergePendingCandidates db now).snd.backup.snapshot = getMainLinks db.mains
      ∧ (mergePendingCandidates db now).fst.backups
          = (db.backups.filter
              (fun b => b.backupNumber ≠ maxBackupNumber db.backups % 30 + 1))
            ++ [{ backupNumber := maxBackupNumber db.backups % 30 + 1,
                  snapshot := getMainLinks db.mains, createdAt := now }]
      ∧ (maxBackupNumber db.backups = 30 →
          (mergePendingCandidates db now).snd.backup.backupNumber = 1)
      ∧ (maxBackupNumber db.backups = 29 →
          (mergePendingCandidates db now).snd.backup.backupNumber = 30)
      ∧ (maxBackupNumber db.backups = 0 →
          (mergePendingCandidates db now).snd.backup.backupNumber = 1) := by
  have h1 : (mergePendingCandidates db now).snd.backup.backupNumber
      = maxBackupNumber db.backups % 30 + 1 := by
    simp [mergePendingCandidates, createRollingBackup, MAX_BACKUPS]
  refine ⟨h1, ?_, ?_, ?_, ?_, ?_⟩
  · simp [mergePendingCandidates, createRollingBackup]
  · simp [mergePendingCandidates, createRollingBackup, MAX_BACKUPS]
  · intro h
    rw [h1, h]
  · intro h
    rw [h1, h]
  · intro h
    rw [h1, h]

/-- A concrete merged candidate row for the C5 scenario. -/
def c5row : CandRow :=
  { id := 1
    name := "Tool X"
    url := "https://x.com"
    canonicalUrl := "https://x.com"
    finalUrl := "https://x.com"
    description := "old description"
    abilitiesCsv := "text"
    pricingTier := "free"
    tagsCsv := ""
    featuresJson := "{}"
    isFree := true
    hasTrial := false
    isPaid := false
    pricingText := ""
    faviconUrl := ""
    thumbnailUrl := ""
    pendingEnrichment := false
    lastCheckedAt := none
    httpStatus := 200
    contentType := "text/html"
    verifiedAt := some 1
    evidenceUrlsJson := "[]"
    evidenceJson := "{old}"
    status := "merged"
    discoveredCount := 3
    discoveredBy := "juleha"
    submittedIpHash := ""
    submittedSessionHash := ""
    captureReason := "verified-link"
    lastSeenAt := 10
    mergedAt := some 20
    createdAt := 5
    updatedAt := 20 }

/-- A concrete re-observation of the same canonical URL. -/
def c5input : CandidateInput :=
  { canonicalUrl := "https://x.com"
    url := "https://x.com"
    finalUrl := ""
    name := "Tool X again"
    description := "new description"
    abilities := []
    pricing := ""
    pricingTier := ""
    priceTier := ""
    tags := []
    evidence := some "{e2}"
    evidenceUrls := some "[]"
    discoveredBy := "juleha"
    submittedIpHash := ""
    submittedSessionHash := ""
    captureReason := "verified-link"
    contentType := ""
    httpStatus := none
    verifiedAt := some 99
    features := none
    pricingText := ""
    faviconUrl := ""
    thumbnailUrl := ""
    isFree := false
    hasTrial := false
    isPaid := false
    pendingEnrichment := true
    lastCheckedAt := none }

/-- C5 (counterexample): upserting a re-observation of a candidate
whose status is merged resets the status to pending, overwrites the
evidence blob and bumps discovered_count, refuting terminality. -/
theorem C5_counterexample :
    c5row.status = "merged"
      ∧ upsertCanonicalUrl c5input = c5row.canonicalUrl
      ∧ ((upsertCandidate [c5row] c5input 100 7).fst.map (fun r => r.status)) = ["pending"]
      ∧ ((upsertCandidate [c5row] c5input 100 7).fst.map (fun r => r.evidenceJson)) = ["{e2}"]
      ∧ ((upsertCandidate [c5row] c5input 100 7).fst.map (fun r => r.discoveredCount)) = [4] := by
  exact ⟨by decide, by decide, by decide, by decide, by decide⟩

/-- C5 (witness): the amended theorem at the concrete merged row. -/
theorem C5_amended_upsert_resets_status_witness :
    upsertCanonicalUrl c5input ≠ ""
      ∧ ((∀ r ∈ (upsertCandidate [c5row] c5input 100 7).fst,
            r.canonicalUrl = upsertCanonicalUrl c5input → r.status = "pending")
          ∧ (∀ (db2 : StoreDB) (now2 : Int),
              (db2.candidates.map (fun x => x.id)).Nodup →
              ∀ cand ∈ db2.candidates, cand.status ≠ "pending" →
                cand ∈ (mergePendingCandidates db2 now2).fst.candidates)) :=
  ⟨by decide, C5_amended_upsert_resets_status [c5row] c5input 100 7 (by decide)⟩

/-- A concrete main row for the C7 scenario. -/
def c7main : MainRow :=
  { name := "Alpha"
    url := "https://x.com"
    description := ""
    abilitiesCsv := "text"
    pricingTier := "free"
    tagsCsv := ""
    featuresJson := "{}"
    isFree := true
    hasTrial := false
    isPaid := false
    pricingText := ""
    faviconUrl := ""
    thumbnailUrl := ""
    pendingEnrichment := false
    lastCheckedAt := none
    source := "manual"
    createdAt := 1
    updatedAt := 1 }

/-- A pending candidate whose URL normalizes to the existing main
url. -/
def c7candDup : CandRow :=
  { c5row with
    id := 11
    name := "Alpha again"
    url := "https://x.com/"
    canonicalUrl := "https://x.com"
    status := "pending"
    createdAt := 1 }

/-- A pending candidate with a fresh URL. -/
def c7candNew : CandRow :=
  { c5row with
    id := 12
    name := "Beta"
    url := "https://y.com"
    canonicalUrl := "https://y.com"
    status := "pending"
    createdAt := 2 }

/-- The C7 scenario store. -/
def c7db : StoreDB :=
  { mains := [c7main], candidates := [c7candDup, c7candNew], backups := [] }

/-- C7 (witness): the theorem at a store with one main link, one
duplicate pending candidate and one fresh pending candidate. -/
theorem C7_no_duplicate_mainlinks_witness :
    (((mergePendingCandidates c7db 50).fst.mains.map (fun m => m.url)).Nodup)
      ∧ ((pendingCandidatesOf c7db).countP
            (fun c => (mainUrlSetOf (getMainLinks c7db.mains)).contains (normalizeUrl c.url))
          ≤ (mergePendingCandidates c7db 50).snd.skippedExistingCount) :=
  ⟨(C7_no_duplicate_mainlinks c7db 50).1 (by decide),
    (C7_no_duplicate_mainlinks c7db 50).2.2⟩

/-- The C8 scenario store: backups at max slot 30. -/
def c8db : StoreDB :=
  { mains := [], candidates := [],
    backups := [{ backupNumber := 30, snapshot := [], createdAt := 1 }] }

/-- C8 (witness): with max slot 30 the merge writes slot 1. -/
theorem C8_rolling_backup_slot_witness :
    maxBackupNumber c8db.backups = 30
      ∧ (mergePendingCandidates c8db 9).snd.backup.backupNumber = 1 :=
  ⟨by decide, (C8_rolling_backup_slot c8db 9).2.2.2.1 (by decide)⟩

/-! ## Queue worker (scripts-and-test/vps-worker, markJobFailed) -/

/-- One row of `ai_scrape_queue`; times are in seconds, matching the
`make_interval(secs => ...)` arithmetic. -/
structure QueueJob where
  id : Nat
  canonicalUrl : String
  requestedUrl : String
  reason : String
  status : String
  attempts : Int
  nextRunAt : Int
  payloadJson : String
  createdAt : Int
  updatedAt : Int
  startedAt : Option Int
  finishedAt : Option Int
  lastError : String
deriving Repr, DecidableEq

/-- The per-row SET clause of `markJobFailed`. -/
def failTransform (j : QueueJob) (maxAttempts backoffBaseSec : Int) (safeError : String)
    (now : Int) : QueueJob :=
  { j with
    attempts := j.attempts + 1
    status := if j.attempts + 1 ≥ maxAttempts then "failed" else "retry"
    nextRunAt :=
      if j.attempts + 1 ≥ maxAttempts then j.nextRunAt
      else now + (j.attempts + 1) * (j.attempts + 1) * backoffBaseSec
    lastError := safeError
    finishedAt := if j.attempts + 1 ≥ maxAttempts then some now else none
    startedAt := none
    updatedAt := now }

/-- Embedding of `markJobFailed`: the error message is defaulted when
empty and truncated to 2000 characters, and the WHERE id clause applies
the SET transform to the matching row. -/
def markJobFailed (jobs : List QueueJob) (jobId : Nat) (maxAttempts backoffBaseSec : Int)
    (errorMessage : String) (now : Int) : List QueueJob :=
  let safeError := takeStr (firstNonEmpty errorMessage "worker-failed") 2000
  jobs.map (fun j =>
    if j.id = jobId then failTransform j maxAttempts backoffBaseSec safeError now else j)

/-- C9: for every job that fails, attempts is incremented; when the new
attempts value reaches maxAttempts the job becomes failed with
finished_at set and next_run_at unchanged, otherwise it becomes retry
with next_run_at = now + attempts squared times backoffBaseSec (the
post-increment attempts), and last_error stores the error message
truncated to 2000 characters. -/
theorem C9_markJobFailed_backoff (jobs : List QueueJob) (jobId : Nat)
    (maxAttempts backoffBaseSec : Int) (msg : String) (now : Int) (j : QueueJob)
    (hj : j ∈ jobs) (hid : j.id = jobId) (hmsg : msg ≠ "") :
    failTransform j maxAttempts backoffBaseSec (takeStr msg 2000) now
        ∈ markJobFailed jobs jobId maxAttempts backoffBaseSec msg now
      ∧ (failTransform j maxAttempts backoffBaseSec (takeStr msg 2000) now).attempts
          = j.attempts + 1
      ∧ (j.attempts + 1 ≥ maxAttempts →
          (failTransform j maxAttempts backoffBaseSec (takeStr msg 2000) now).status = "failed"
            ∧ (failTransform j maxAttempts backoffBaseSec (takeStr msg 2000) now).finishedAt
                = some now
            ∧ (failTransform j maxAttempts backoffBaseSec (takeStr msg 2000) now).nextRunAt
                = j.nextRunAt)
      ∧ (¬(j.attempts + 1 ≥ maxAttempts) →
          (failTransform j maxAttempts backoffBaseSec (takeStr msg 2000) now).status = "retry"
            ∧ (failTransform j maxAttempts backoffBaseSec (takeStr msg 2000) now).nextRunAt
                = now + (j.attempts + 1) * (j.attempts + 1) * backoffBaseSec
            ∧ (failTransform j maxAttempts backoffBaseSec (takeStr msg 2000) now).finishedAt
                = none)
      ∧ (failTransform j maxAttempts backoffBaseSec (takeStr msg 2000) now).lastError
          = takeStr msg 2000
      ∧ ((failTransform j maxAttempts backoffBaseSec (takeStr msg 2000) now).lastError).length
          ≤ 2000 := by
  refine ⟨?_, by simp [failTransform], ?_, ?_, by simp [failTransform], ?_⟩
  · have hfe : firstNonEmpty msg "worker-failed" = msg := by
      simp [firstNonEmpty, hmsg]
    have := List.mem_map_of_mem (fun j : QueueJob =>
      if j.id = jobId then
        failTransform j maxAttempts backoffBaseSec
          (takeStr (firstNonEmpty msg "worker-failed") 2000) now
      else j) hj
    simpa [markJobFailed, if_pos hid, hfe] using this
  · intro h
    simp [failTransform, if_pos h]
  · intro h
    simp [failTransform, if_neg h]
  · show (takeStr msg 2000).length ≤ 2000
    have hlen : (takeStr msg 2000).length = (msg.toList.take 2000).length := rfl
    rw [hlen, List.length_take]
    omega

def c9job : QueueJob :=
  { id := 3
    canonicalUrl := "https://x.com"
    requestedUrl := "https://x.com"
    reason := "candidate-enrichment"
    status := "processing"
    attempts := 1
    nextRunAt := 0
    payloadJson := "{}"
    createdAt := 0
    updatedAt := 0
    startedAt := some 5
    finishedAt := none
    lastError := ""
    : QueueJob }

/-- C9 (witness): a processing job with attempts 1 under maxAttempts 5
moves to retry with next_run_at = now + 4 times the backoff base. -/
theorem C9_markJobFailed_backoff_witness :
    c9job ∈ [c9job]
      ∧ c9job.id = 3
      ∧ ("tools-timeout" : String) ≠ ""
      ∧ (failTransform c9job 5 60 (takeStr "tools-timeout" 2000) 7
            ∈ markJobFailed [c9job] 3 5 60 "tools-timeout" 7
          ∧ (failTransform c9job 5 60 (takeStr "tools-timeout" 2000) 7).attempts
              = c9job.attempts + 1) :=
  ⟨by decide, by decide, by decide,
    (C9_markJobFailed_backoff [c9job] 3 5 60 "tools-timeout" 7 c9job
        (by decide) (by decide) (by decide)).1,
    (C9_markJobFailed_backoff [c9job] 3 5 60 "tools-timeout" 7 c9job
        (by decide) (by decide) (by decide)).2.1⟩
